import Mathlib

/-!
# WhiteNoiseWidget: a shallow embedding

Embedding of `components/WhiteNoiseWidget.js`.

Modelling conventions.

* A JavaScript object with string keys is an association list in insertion
  order; `{...prev, [id]: v}` overwrites the entry in place when the key is
  present and appends it otherwise.
* Volumes are rationals: the code only stores them and compares them with `0`.
* Seconds are mathematical integers (exact for JavaScript numbers of
  magnitude below `2^53`).
* React state is a record; an event handler is a function on that record.
  After a handler has run, React re-renders and flushes the effects
  (`commit`); one operation is `commit` after the handler, so every handler
  sees the state of the latest render, as its closure does.  The state a
  handler returns, before `commit`, is what React renders first: the effects
  have not run on it yet.
* The browser's table of running intervals is part of the state
  (`activeIntervals`); `setInterval` hands out positive handles.
* The updater passed to `setTimerRemaining` runs once per tick, and
  `audio.play()` succeeds (the element is no longer paused afterwards).
* Two history counters, `stopAllCalls` and `masterPauses`, record how often
  `stopAllSounds` ran and how often the pause branch of `toggleMasterPlay`
  ran.  No code path reads them.
-/

namespace NoiseWidget

/-! ## Data model -/

/-- The static part of an entry of `SOUNDS` (the icon is omitted). -/
structure Sound where
  id : String
  name : String
  src : String
  deriving DecidableEq, Repr

/-- The array `SOUNDS` of `WhiteNoiseWidget`. -/
def SOUNDS : List Sound :=
  [ ⟨"rain", "Rain", "/sounds/rain.mp3"⟩,
    ⟨"forest", "Forest", "https://cdn.pixabay.com/audio/2022/09/20/audio_b72410a539.mp3"⟩,
    ⟨"ocean", "Ocean", "/sounds/ocean.mp3"⟩,
    ⟨"summer", "Summer Night", "/sounds/sun.mp3"⟩ ]

/-- A JavaScript object from track id to volume, in insertion order. -/
abbrev VolumeMap := List (String × ℚ)

/-- The object spread `{...m, [id]: v}`. -/
def VolumeMap.set : VolumeMap → String → ℚ → VolumeMap
  | [], id, v => [(id, v)]
  | (k, w) :: rest, id, v =>
    if k = id then (k, v) :: rest else (k, w) :: VolumeMap.set rest id v

/-- The property read `m[id]`; `none` stands for `undefined`. -/
def VolumeMap.get : VolumeMap → String → Option ℚ
  | [], _ => none
  | (k, w) :: rest, id => if k = id then some w else VolumeMap.get rest id

/-- The call `Object.values(m)`. -/
def objectValues (m : VolumeMap) : List ℚ := m.map Prod.snd

/-- The keys of the object, `Object.keys(m)`. -/
def objectKeys (m : VolumeMap) : List String := m.map Prod.fst

/-- The reducer `SOUNDS.reduce((acc, s) => ({ ...acc, [s.id]: v }), {})`. -/
def uniformVolumes (v : ℚ) : VolumeMap :=
  SOUNDS.foldl (fun acc s => VolumeMap.set acc s.id v) []

/-- The `<audio>` element of one track: the two attributes the code touches. -/
structure AudioElement where
  volume : ℚ
  paused : Bool
  deriving DecidableEq

/-- One mounted `SoundControl`: its `useState` cell (`none` before the first
render), the dependency value of its last effect run and its audio element. -/
structure SoundControlState where
  sound : Sound
  volumeCell : Option ℚ
  effectDeps : Option ℚ
  audio : AudioElement
  deriving DecidableEq

/-- The state of a mounted `WhiteNoiseWidget` with its environment. -/
structure WidgetState where
  volumes : VolumeMap
  isAnythingPlaying : Bool
  lastPlayedVolumes : VolumeMap
  timerDuration : Int
  timerRemaining : Int
  timerIntervalRef : Option Nat
  activeIntervals : List Nat
  nextIntervalId : Nat
  controls : List SoundControlState
  stopAllCalls : Nat
  masterPauses : Nat
  deriving DecidableEq

/-! ## SoundControl -/

/-- The body of the effect of `SoundControl` for the rendered `volume`. -/
def audioEffect (volume : ℚ) (audio : AudioElement) : AudioElement :=
  let audio := { audio with volume := volume }
  if 0 < volume ∧ audio.paused = true then { audio with paused := false }
  else if volume = 0 ∧ audio.paused = false then { audio with paused := true }
  else audio

/-- One render of `SoundControl` with the prop `initialVolume`, followed by its
effect when the dependency `volume` differs from the one of the last run.
`useState(initialVolume)` reads the prop only while the cell is empty. -/
def SoundControl.render (initialVolume : ℚ) (c : SoundControlState) :
    SoundControlState :=
  let volume := c.volumeCell.getD initialVolume
  let c := { c with volumeCell := some volume }
  if c.effectDeps = some volume then c
  else { c with effectDeps := some volume, audio := audioEffect volume c.audio }

/-! ## WhiteNoiseWidget: handlers -/

/-- The test `Object.values(volumes).some(v => v > 0)`. -/
def isAnySoundOn (m : VolumeMap) : Bool :=
  (objectValues m).any (fun v => decide (0 < v))

/-- The handler `handleVolumeChange(id, volume)`. -/
def handleVolumeChange (id : String) (volume : ℚ) (s : WidgetState) : WidgetState :=
  { s with volumes := VolumeMap.set s.volumes id volume }

/-- The handler `stopAllSounds()`. -/
def stopAllSounds (s : WidgetState) : WidgetState :=
  { s with volumes := uniformVolumes 0, stopAllCalls := s.stopAllCalls + 1 }

/-- The handler `toggleMasterPlay()`. -/
def toggleMasterPlay (s : WidgetState) : WidgetState :=
  if s.isAnythingPlaying = true then
    stopAllSounds { s with lastPlayedVolumes := s.volumes,
                           masterPauses := s.masterPauses + 1 }
  else
    { s with volumes := s.lastPlayedVolumes }

/-- Truthiness of `timerIntervalRef.current`: `null` and `0` are falsy. -/
def refTruthy : Option Nat → Bool
  | none => false
  | some h => decide (h ≠ 0)

/-- The helper `cleanupTimer()`. -/
def cleanupTimer (s : WidgetState) : WidgetState :=
  match s.timerIntervalRef with
  | some h =>
    if h ≠ 0 then
      { s with activeIntervals := s.activeIntervals.filter (fun i => i ≠ h),
               timerIntervalRef := none }
    else s
  | none => s

/-- The handler `startTimer(durationInSeconds)`. -/
def startTimer (durationInSeconds : Int) (s : WidgetState) : WidgetState :=
  let s := cleanupTimer s
  let s := { s with timerDuration := durationInSeconds,
                    timerRemaining := durationInSeconds }
  if 0 < durationInSeconds then
    { s with timerIntervalRef := some s.nextIntervalId,
             activeIntervals := s.activeIntervals ++ [s.nextIntervalId],
             nextIntervalId := s.nextIntervalId + 1 }
  else s

/-- The callback given to `setInterval` in `startTimer`. -/
def intervalCallback (s : WidgetState) : WidgetState :=
  if s.timerRemaining ≤ 1 then
    let s := stopAllSounds (cleanupTimer s)
    { s with timerDuration := 0, timerRemaining := 0 }
  else
    { s with timerRemaining := s.timerRemaining - 1 }

/-- The handler `handleTimerButtonClick(minutes)`. -/
def handleTimerButtonClick (minutes : Int) (s : WidgetState) : WidgetState :=
  let seconds := minutes * 60
  if s.timerDuration = seconds ∧ refTruthy s.timerIntervalRef = true then
    let s := cleanupTimer s
    { s with timerDuration := 0, timerRemaining := 0 }
  else
    startTimer seconds s

/-- The `onChange` handler of the slider of the `SoundControl` of track `id`:
`setVolume(newVolume)` in the child, then `onVolumeChange(sound.id, newVolume)`. -/
def sliderChange (id : String) (newVolume : ℚ) (s : WidgetState) : WidgetState :=
  if s.controls.any (fun c => decide (c.sound.id = id)) then
    handleVolumeChange id newVolume
      { s with controls := s.controls.map (fun c =>
          if c.sound.id = id then { c with volumeCell := some newVolume } else c) }
  else s

/-- One second elapses: every interval that is still running fires once. -/
def fireIntervals (s : WidgetState) : WidgetState :=
  s.activeIntervals.foldl
    (fun st h => if h ∈ st.activeIntervals then intervalCallback st else st) s

/-! ## Rendering and effects -/

/-- React re-renders the widget and flushes the effects: every `SoundControl`
is rendered with `initialVolume = volumes[sound.id]`, and the effect on
`[volumes]` recomputes `isAnythingPlaying`.  The entry of a known track is
always present (`KeysInv`), so the default `0` of the read is never used. -/
def commit (s : WidgetState) : WidgetState :=
  { s with
    controls := s.controls.map (fun c =>
      SoundControl.render ((VolumeMap.get s.volumes c.sound.id).getD 0) c),
    isAnythingPlaying := isAnySoundOn s.volumes }

/-- The widget before its first render; a fresh `<audio>` element has volume 1
and is paused. -/
def unmounted : WidgetState :=
  { volumes := uniformVolumes 0
    isAnythingPlaying := false
    lastPlayedVolumes := uniformVolumes (1 / 2)
    timerDuration := 0
    timerRemaining := 0
    timerIntervalRef := none
    activeIntervals := []
    nextIntervalId := 1
    controls := SOUNDS.map (fun sd => ⟨sd, none, none, ⟨1, true⟩⟩)
    stopAllCalls := 0
    masterPauses := 0 }

/-- The mounted widget. -/
def init : WidgetState := commit unmounted

/-! ## Operations -/

/-- The operations of the widget. -/
inductive Event where
  | slider (id : String) (newVolume : ℚ)
  | volumeChange (id : String) (volume : ℚ)
  | stopAll
  | masterToggle
  | start (durationInSeconds : Int)
  | timerButton (minutes : Int)
  | tick
  deriving DecidableEq

/-- The handler an operation runs. -/
def Event.handler : Event → WidgetState → WidgetState
  | .slider id v => sliderChange id v
  | .volumeChange id v => handleVolumeChange id v
  | .stopAll => stopAllSounds
  | .masterToggle => toggleMasterPlay
  | .start d => startTimer d
  | .timerButton m => handleTimerButtonClick m
  | .tick => fireIntervals

/-- One operation: the handler, then render and effects. -/
def step (e : Event) (s : WidgetState) : WidgetState := commit (e.handler s)

/-- A sequence of operations, the first of the list first. -/
def run (es : List Event) (s : WidgetState) : WidgetState :=
  es.foldl (fun st e => step e st) s

/-- The operation `tick` repeated. -/
def ticks : Nat → WidgetState → WidgetState
  | 0, s => s
  | k + 1, s => ticks k (step .tick s)

/-- The timer arguments of the operation are not negative. -/
def Event.nonneg : Event → Prop
  | .start d => 0 ≤ d
  | .timerButton m => 0 ≤ m
  | _ => True

/-! ## Display of the remaining time -/

/-- The conversion `String(n)` of an integer `n`, as a list of characters. -/
def numberToString (n : Int) : List Char :=
  if n < 0 then '-' :: Nat.toDigits 10 n.natAbs else Nat.toDigits 10 n.toNat

/-- The call `str.padStart(targetLength, pad)` for a one-character `pad`. -/
def padStart (str : List Char) (targetLength : Nat) (pad : Char) : List Char :=
  List.replicate (targetLength - str.length) pad ++ str

/-- The function `formatTime(seconds)`; `Math.floor(seconds / 60)` is floor
division and `%` is the remainder with the sign of the dividend. -/
def formatTime (seconds : Int) : String :=
  if seconds = 0 ∨ seconds ≤ 0 then "Set Timer"
  else
    let mins := Int.fdiv seconds 60
    let secs := Int.tmod seconds 60
    String.mk (padStart (numberToString mins) 2 '0' ++ [':']
      ++ padStart (numberToString secs) 2 '0')

/-- The value of a decimal digit character. -/
def digitValue (c : Char) : Nat := c.toNat - '0'.toNat

/-- Reading a string of decimal digits as a number (what the text `MM` or `SS`
denotes); this follows the specification, not the code. -/
def parseDecimal (cs : List Char) : Nat :=
  cs.foldl (fun acc c => 10 * acc + digitValue c) 0

/-! ## Invariants -/

/-- The flag agrees with the volume map, the stored snapshot has a track that
is on, and the snapshot is the default mix while no master pause has run. -/
structure MixInv (s : WidgetState) : Prop where
  flag : s.isAnythingPlaying = isAnySoundOn s.volumes
  snapshot : isAnySoundOn s.lastPlayedVolumes = true
  fresh : s.masterPauses = 0 → s.lastPlayedVolumes = uniformVolumes (1 / 2)

/-- The ids of `SOUNDS`. -/
def knownIds : List String := SOUNDS.map (fun sd => sd.id)

/-- Both the volume map and the snapshot hold one entry per known track. -/
structure KeysInv (s : WidgetState) : Prop where
  volumes : ∀ id ∈ knownIds, (objectKeys s.volumes).count id = 1
  snapshot : ∀ id ∈ knownIds, (objectKeys s.lastPlayedVolumes).count id = 1

/-- The interval table holds exactly the interval the ref points to, handles
are positive, and the next handle to be handed out is positive. -/
structure TimerWF (s : WidgetState) : Prop where
  intervals : s.activeIntervals = s.timerIntervalRef.toList
  handle : ∀ h, s.timerIntervalRef = some h → h ≠ 0
  next : s.nextIntervalId ≠ 0

/-- A countdown is in progress: the ref holds the positive handle `h`, which is
the only running interval; `r` seconds remain of `d`; `c` counts the calls of
`stopAllSounds` so far. -/
structure Running (s : WidgetState) (h : Nat) (r d : Int) (c : Nat) : Prop where
  ref : s.timerIntervalRef = some h
  pos : h ≠ 0
  intervals : s.activeIntervals = [h]
  remaining : s.timerRemaining = r
  duration : s.timerDuration = d
  calls : s.stopAllCalls = c
  next : s.nextIntervalId ≠ 0

/-- No countdown is in progress and the timer state is zero. -/
structure Stopped (s : WidgetState) (c : Nat) : Prop where
  ref : s.timerIntervalRef = none
  intervals : s.activeIntervals = []
  remaining : s.timerRemaining = 0
  duration : s.timerDuration = 0
  calls : s.stopAllCalls = c
  next : s.nextIntervalId ≠ 0

/-- The state `t` has the timer fields of `s`. -/
structure SameTimer (s t : WidgetState) : Prop where
  duration : t.timerDuration = s.timerDuration
  remaining : t.timerRemaining = s.timerRemaining
  ref : t.timerIntervalRef = s.timerIntervalRef
  intervals : t.activeIntervals = s.activeIntervals
  next : t.nextIntervalId = s.nextIntervalId

/-- The numeric part of the timer invariant. -/
structure TimerBounds (s : WidgetState) : Prop where
  wf : TimerWF s
  nonneg : 0 ≤ s.timerRemaining
  le : s.timerRemaining ≤ s.timerDuration
  active : s.timerIntervalRef ≠ none → 0 < s.timerRemaining

/-! ## Basic facts about rendering and sequences of operations -/

@[simp] theorem commit_volumes (s : WidgetState) : (commit s).volumes = s.volumes := rfl

@[simp] theorem commit_isAnythingPlaying (s : WidgetState) :
    (commit s).isAnythingPlaying = isAnySoundOn s.volumes := rfl

@[simp] theorem commit_lastPlayedVolumes (s : WidgetState) :
    (commit s).lastPlayedVolumes = s.lastPlayedVolumes := rfl

@[simp] theorem commit_timerDuration (s : WidgetState) :
    (commit s).timerDuration = s.timerDuration := rfl

@[simp] theorem commit_timerRemaining (s : WidgetState) :
    (commit s).timerRemaining = s.timerRemaining := rfl

@[simp] theorem commit_timerIntervalRef (s : WidgetState) :
    (commit s).timerIntervalRef = s.timerIntervalRef := rfl

@[simp] theorem commit_activeIntervals (s : WidgetState) :
    (commit s).activeIntervals = s.activeIntervals := rfl

@[simp] theorem commit_nextIntervalId (s : WidgetState) :
    (commit s).nextIntervalId = s.nextIntervalId := rfl

@[simp] theorem commit_stopAllCalls (s : WidgetState) :
    (commit s).stopAllCalls = s.stopAllCalls := rfl

@[simp] theorem commit_masterPauses (s : WidgetState) :
    (commit s).masterPauses = s.masterPauses := rfl

theorem run_nil (s : WidgetState) : run [] s = s := rfl

theorem run_cons (e : Event) (es : List Event) (s : WidgetState) :
    run (e :: es) s = run es (step e s) := rfl

/-- A property of the mounted widget that every operation preserves holds in
every reachable state. -/
theorem run_induction (P : WidgetState → Prop) (h0 : P init)
    (hstep : ∀ e s, P s → P (step e s)) (es : List Event) : P (run es init) := by
  suffices h : ∀ s, P s → P (run es s) from h init h0
  induction es with
  | nil => intro s hs; exact hs
  | cons e es ih => intro s hs; exact ih (step e s) (hstep e s hs)

/-- The variant of `run_induction` for operations with timer arguments that
are not negative. -/
theorem run_induction_nonneg (P : WidgetState → Prop) (h0 : P init)
    (hstep : ∀ e s, e.nonneg → P s → P (step e s)) (es : List Event)
    (hes : ∀ e ∈ es, e.nonneg) : P (run es init) := by
  suffices h : ∀ s, P s → P (run es s) from h init h0
  induction es with
  | nil => intro s hs; exact hs
  | cons e es ih =>
    intro s hs
    exact ih (fun e' he' => hes e' (List.mem_cons_of_mem _ he')) (step e s)
      (hstep e s (hes e (List.mem_cons_self _ _)) hs)

theorem isAnySoundOn_iff (m : VolumeMap) :
    isAnySoundOn m = true ↔ ∃ p ∈ m, 0 < p.2 := by
  simp only [isAnySoundOn, objectValues, List.any_eq_true, List.mem_map, decide_eq_true_eq]
  constructor
  · rintro ⟨v, ⟨p, hp, rfl⟩, hv⟩
    exact ⟨p, hp, hv⟩
  · rintro ⟨p, hp, hv⟩
    exact ⟨p.2, ⟨p, hp, rfl⟩, hv⟩

theorem uniformVolumes_eq (v : ℚ) :
    uniformVolumes v = [("rain", v), ("forest", v), ("ocean", v), ("summer", v)] := by
  simp [uniformVolumes, SOUNDS, VolumeMap.set]

theorem isAnySoundOn_uniform_zero : isAnySoundOn (uniformVolumes 0) = false := by
  simp [uniformVolumes_eq, isAnySoundOn, objectValues]

theorem isAnySoundOn_uniform_half : isAnySoundOn (uniformVolumes (1 / 2)) = true := by
  simp [uniformVolumes_eq, isAnySoundOn, objectValues]

/-! ## The mix: flag and snapshot -/

theorem mixInv_init : MixInv init :=
  ⟨rfl, isAnySoundOn_uniform_half, fun _ => rfl⟩

theorem timer_handlers_mix (s : WidgetState) :
    (∀ d, (startTimer d s).lastPlayedVolumes = s.lastPlayedVolumes ∧
      (startTimer d s).masterPauses = s.masterPauses) ∧
    (∀ m, (handleTimerButtonClick m s).lastPlayedVolumes = s.lastPlayedVolumes ∧
      (handleTimerButtonClick m s).masterPauses = s.masterPauses) := by
  have hc : (cleanupTimer s).lastPlayedVolumes = s.lastPlayedVolumes ∧
      (cleanupTimer s).masterPauses = s.masterPauses := by
    unfold cleanupTimer; split <;> [split; skip] <;> simp
  have hs : ∀ d, (startTimer d s).lastPlayedVolumes = s.lastPlayedVolumes ∧
      (startTimer d s).masterPauses = s.masterPauses := by
    intro d; unfold startTimer; simp only; split <;> simp [hc]
  refine ⟨hs, fun m => ?_⟩
  unfold handleTimerButtonClick
  simp only
  split
  · simp [hc]
  · exact hs _

theorem intervalCallback_mix (s : WidgetState) :
    (intervalCallback s).lastPlayedVolumes = s.lastPlayedVolumes ∧
      (intervalCallback s).masterPauses = s.masterPauses := by
  unfold intervalCallback
  split
  · simp only [stopAllSounds]
    unfold cleanupTimer; split <;> [split; skip] <;> simp
  · simp

theorem fireIntervals_mix (s : WidgetState) :
    (fireIntervals s).lastPlayedVolumes = s.lastPlayedVolumes ∧
      (fireIntervals s).masterPauses = s.masterPauses := by
  unfold fireIntervals
  generalize s.activeIntervals = l
  induction l generalizing s with
  | nil => simp
  | cons h t ih =>
    simp only [List.foldl_cons]
    split
    · have h1 := ih (intervalCallback s)
      have h2 := intervalCallback_mix s
      exact ⟨h1.1.trans h2.1, h1.2.trans h2.2⟩
    · exact ih s

theorem mixInv_step (e : Event) (s : WidgetState) (h : MixInv s) : MixInv (step e s) := by
  obtain ⟨hf, hsn, hfr⟩ := h
  cases e with
  | slider id v =>
    have h1 : (sliderChange id v s).lastPlayedVolumes = s.lastPlayedVolumes := by
      simp only [sliderChange, handleVolumeChange]; split <;> rfl
    have h2 : (sliderChange id v s).masterPauses = s.masterPauses := by
      simp only [sliderChange, handleVolumeChange]; split <;> rfl
    refine ⟨rfl, ?_, ?_⟩
    · simp only [step, Event.handler, commit_lastPlayedVolumes, h1]; exact hsn
    · simp only [step, Event.handler, commit_lastPlayedVolumes, commit_masterPauses, h1, h2]
      exact hfr
  | volumeChange id v => exact ⟨rfl, hsn, hfr⟩
  | stopAll => exact ⟨rfl, hsn, hfr⟩
  | masterToggle =>
    refine ⟨rfl, ?_, ?_⟩
    · simp only [step, Event.handler, toggleMasterPlay, stopAllSounds, commit_lastPlayedVolumes]
      split
      · rename_i hp; simpa [hf] using hp
      · exact hsn
    · simp only [step, Event.handler, toggleMasterPlay, stopAllSounds, commit_lastPlayedVolumes,
        commit_masterPauses]
      split
      · simp
      · exact hfr
  | start d =>
    have := (timer_handlers_mix s).1 d
    exact ⟨rfl, by simpa [step, Event.handler, this.1] using hsn,
      by simpa [step, Event.handler, this.1, this.2] using hfr⟩
  | timerButton m =>
    have := (timer_handlers_mix s).2 m
    exact ⟨rfl, by simpa [step, Event.handler, this.1] using hsn,
      by simpa [step, Event.handler, this.1, this.2] using hfr⟩
  | tick =>
    have := fireIntervals_mix s
    exact ⟨rfl, by simpa [step, Event.handler, this.1] using hsn,
      by simpa [step, Event.handler, this.1, this.2] using hfr⟩

theorem mixInv_run (es : List Event) : MixInv (run es init) :=
  run_induction MixInv mixInv_init mixInv_step es

/-! ## Totality of the volume map -/

theorem objectKeys_set_of_mem (m : VolumeMap) (id : String) (v : ℚ)
    (h : id ∈ objectKeys m) : objectKeys (VolumeMap.set m id v) = objectKeys m := by
  induction m with
  | nil => simp [objectKeys] at h
  | cons p rest ih =>
    obtain ⟨k, w⟩ := p
    by_cases hk : k = id
    · simp [VolumeMap.set, hk, objectKeys]
    · have hr : id ∈ objectKeys rest := by
        simp only [objectKeys, List.map_cons, List.mem_cons] at h
        rcases h with h | h
        · exact absurd h.symm hk
        · exact h
      have := ih hr
      simp only [objectKeys] at this
      simp [VolumeMap.set, hk, objectKeys, this]

theorem count_objectKeys_set_of_ne (m : VolumeMap) (id k : String) (v : ℚ)
    (h : k ≠ id) :
    (objectKeys (VolumeMap.set m id v)).count k = (objectKeys m).count k := by
  induction m with
  | nil => simp [VolumeMap.set, objectKeys, List.count_cons, Ne.symm h]
  | cons p rest ih =>
    obtain ⟨k', w⟩ := p
    by_cases hk : k' = id
    · simp [VolumeMap.set, hk, objectKeys]
    · simp only [objectKeys] at ih
      simp [VolumeMap.set, hk, objectKeys, List.count_cons, ih]

theorem count_objectKeys_set (m : VolumeMap) (id k : String) (v : ℚ)
    (h : (objectKeys m).count k = 1) : (objectKeys (VolumeMap.set m id v)).count k = 1 := by
  by_cases hk : k = id
  · subst hk
    have hmem : k ∈ objectKeys m := List.count_pos_iff.mp (by omega)
    rw [objectKeys_set_of_mem m k v hmem]; exact h
  · rw [count_objectKeys_set_of_ne m id k v hk]; exact h

theorem get_isSome_of_mem (m : VolumeMap) (id : String) (h : id ∈ objectKeys m) :
    (VolumeMap.get m id).isSome = true := by
  induction m with
  | nil => simp [objectKeys] at h
  | cons p rest ih =>
    obtain ⟨k, w⟩ := p
    by_cases hk : k = id
    · simp [VolumeMap.get, hk]
    · have hr : id ∈ objectKeys rest := by
        simp only [objectKeys, List.map_cons, List.mem_cons] at h
        rcases h with h | h
        · exact absurd h.symm hk
        · exact h
      simp [VolumeMap.get, hk, ih hr]

theorem knownIds_eq : knownIds = ["rain", "forest", "ocean", "summer"] := rfl

theorem count_uniformVolumes (v : ℚ) (id : String) (h : id ∈ knownIds) :
    (objectKeys (uniformVolumes v)).count id = 1 := by
  rw [uniformVolumes_eq]
  simp only [knownIds_eq, List.mem_cons, List.mem_singleton, List.not_mem_nil, or_false] at h
  rcases h with h | h | h | h <;> subst h <;> simp [objectKeys, List.count_cons]

theorem timer_handlers_volumes (s : WidgetState) :
    (∀ d, (startTimer d s).volumes = s.volumes) ∧
    (∀ m, (handleTimerButtonClick m s).volumes = s.volumes) := by
  have hc : (cleanupTimer s).volumes = s.volumes := by
    unfold cleanupTimer; split <;> [split; skip] <;> simp
  have hs : ∀ d, (startTimer d s).volumes = s.volumes := by
    intro d; unfold startTimer; simp only; split <;> simp [hc]
  refine ⟨hs, fun m => ?_⟩
  unfold handleTimerButtonClick
  simp only
  split
  · simp [hc]
  · exact hs _

theorem intervalCallback_volumes (s : WidgetState) :
    (intervalCallback s).volumes = s.volumes ∨
      (intervalCallback s).volumes = uniformVolumes 0 := by
  unfold intervalCallback
  split
  · right; rfl
  · left; rfl

theorem fireIntervals_volumes (s : WidgetState) :
    (fireIntervals s).volumes = s.volumes ∨ (fireIntervals s).volumes = uniformVolumes 0 := by
  unfold fireIntervals
  generalize s.activeIntervals = l
  induction l generalizing s with
  | nil => left; rfl
  | cons h t ih =>
    simp only [List.foldl_cons]
    split
    · rcases ih (intervalCallback s) with h1 | h1
      · rcases intervalCallback_volumes s with h2 | h2
        · left; exact h1.trans h2
        · right; exact h1.trans h2
      · right; exact h1
    · exact ih s

theorem keysInv_init : KeysInv init :=
  ⟨fun id h => count_uniformVolumes 0 id h, fun id h => count_uniformVolumes (1 / 2) id h⟩

theorem keysInv_step (e : Event) (s : WidgetState) (h : KeysInv s) : KeysInv (step e s) := by
  obtain ⟨hv, hl⟩ := h
  cases e with
  | slider id v =>
    constructor
    · intro k hk
      simp only [step, Event.handler, sliderChange, handleVolumeChange, commit_volumes]
      split
      · exact count_objectKeys_set _ _ _ _ (hv k hk)
      · exact hv k hk
    · intro k hk
      simp only [step, Event.handler, sliderChange, handleVolumeChange, commit_lastPlayedVolumes]
      split <;> exact hl k hk
  | volumeChange id v =>
    exact ⟨fun k hk => count_objectKeys_set _ _ _ _ (hv k hk), hl⟩
  | stopAll => exact ⟨fun k hk => count_uniformVolumes 0 k hk, hl⟩
  | masterToggle =>
    constructor
    · intro k hk
      simp only [step, Event.handler, toggleMasterPlay, stopAllSounds, commit_volumes]
      split
      · exact count_uniformVolumes 0 k hk
      · exact hl k hk
    · intro k hk
      simp only [step, Event.handler, toggleMasterPlay, stopAllSounds, commit_lastPlayedVolumes]
      split
      · exact hv k hk
      · exact hl k hk
  | start d =>
    have h1 := (timer_handlers_volumes s).1 d
    have h2 := ((timer_handlers_mix s).1 d).1
    exact ⟨by simpa [step, Event.handler, h1] using hv, by simpa [step, Event.handler, h2] using hl⟩
  | timerButton m =>
    have h1 := (timer_handlers_volumes s).2 m
    have h2 := ((timer_handlers_mix s).2 m).1
    exact ⟨by simpa [step, Event.handler, h1] using hv, by simpa [step, Event.handler, h2] using hl⟩
  | tick =>
    have h2 := (fireIntervals_mix s).1
    refine ⟨?_, by simpa [step, Event.handler, h2] using hl⟩
    intro k hk
    simp only [step, Event.handler, commit_volumes]
    rcases fireIntervals_volumes s with h1 | h1 <;> rw [h1]
    · exact hv k hk
    · exact count_uniformVolumes 0 k hk

theorem keysInv_run (es : List Event) : KeysInv (run es init) :=
  run_induction KeysInv keysInv_init keysInv_step es

/-! ## Claims about the mix -/

theorem toggle_of_playing (s : WidgetState) (hp : s.isAnythingPlaying = true) :
    (step .masterToggle s).volumes = uniformVolumes 0 ∧
    (step .masterToggle s).lastPlayedVolumes = s.volumes ∧
    (step .masterToggle s).isAnythingPlaying = false := by
  have h : toggleMasterPlay s =
      stopAllSounds { s with lastPlayedVolumes := s.volumes,
                             masterPauses := s.masterPauses + 1 } := by
    unfold toggleMasterPlay; rw [if_pos hp]
  refine ⟨?_, ?_, ?_⟩
  · show (toggleMasterPlay s).volumes = _
    rw [h]; rfl
  · show (toggleMasterPlay s).lastPlayedVolumes = _
    rw [h]; rfl
  · show isAnySoundOn (toggleMasterPlay s).volumes = false
    rw [h]; exact isAnySoundOn_uniform_zero

theorem toggle_of_idle (s : WidgetState) (hp : s.isAnythingPlaying = false) :
    (step .masterToggle s).volumes = s.lastPlayedVolumes := by
  show (toggleMasterPlay s).volumes = _
  unfold toggleMasterPlay
  rw [if_neg (by simp [hp])]

/-- C1: from a state whose volume map has a track with volume above 0 and
whose playing flag agrees with the map, the master toggle applied twice in a
row mutes every track after the first application and gives back exactly the
original volume map after the second. -/
theorem toggleMasterPlay_round_trip (s : WidgetState)
    (hon : ∃ p ∈ s.volumes, 0 < p.2)
    (hsync : s.isAnythingPlaying = isAnySoundOn s.volumes) :
    (step .masterToggle s).volumes = uniformVolumes 0 ∧
      (step .masterToggle (step .masterToggle s)).volumes = s.volumes := by
  have hp : s.isAnythingPlaying = true := by
    rw [hsync]; exact (isAnySoundOn_iff _).mpr hon
  obtain ⟨h1, h2, h3⟩ := toggle_of_playing s hp
  exact ⟨h1, (toggle_of_idle _ h3).trans h2⟩

theorem toggleMasterPlay_round_trip_witness :
    (∃ p ∈ (step (.slider "rain" 1) init).volumes, 0 < p.2) ∧
    (step (.slider "rain" 1) init).isAnythingPlaying
      = isAnySoundOn (step (.slider "rain" 1) init).volumes ∧
    (step .masterToggle (step (.slider "rain" 1) init)).volumes = uniformVolumes 0 ∧
    (step .masterToggle (step .masterToggle (step (.slider "rain" 1) init))).volumes
      = (step (.slider "rain" 1) init).volumes :=
  ⟨by decide, by decide,
    toggleMasterPlay_round_trip (step (.slider "rain" 1) init) (by decide) (by decide)⟩

theorem cleanupTimer_isAnythingPlaying (s : WidgetState) :
    (cleanupTimer s).isAnythingPlaying = s.isAnythingPlaying := by
  unfold cleanupTimer
  split <;> [split; skip] <;> rfl

theorem startTimer_isAnythingPlaying (d : Int) (s : WidgetState) :
    (startTimer d s).isAnythingPlaying = s.isAnythingPlaying := by
  unfold startTimer
  simp only
  split <;> exact cleanupTimer_isAnythingPlaying s

theorem intervalCallback_isAnythingPlaying (s : WidgetState) :
    (intervalCallback s).isAnythingPlaying = s.isAnythingPlaying := by
  unfold intervalCallback
  split
  · exact cleanupTimer_isAnythingPlaying s
  · rfl

theorem fireIntervals_isAnythingPlaying (s : WidgetState) :
    (fireIntervals s).isAnythingPlaying = s.isAnythingPlaying := by
  unfold fireIntervals
  generalize s.activeIntervals = l
  induction l generalizing s with
  | nil => rfl
  | cons h t ih =>
    simp only [List.foldl_cons]
    split
    · exact (ih (intervalCallback s)).trans (intervalCallback_isAnythingPlaying s)
    · exact ih s

/-- No handler writes `isAnythingPlaying`: only the effect on `[volumes]` does. -/
theorem handler_isAnythingPlaying (e : Event) (s : WidgetState) :
    (e.handler s).isAnythingPlaying = s.isAnythingPlaying := by
  cases e with
  | slider id v =>
    show (sliderChange id v s).isAnythingPlaying = _
    unfold sliderChange handleVolumeChange
    split <;> rfl
  | volumeChange id v => rfl
  | stopAll => rfl
  | masterToggle =>
    show (toggleMasterPlay s).isAnythingPlaying = _
    unfold toggleMasterPlay stopAllSounds
    split <;> rfl
  | start d => exact startTimer_isAnythingPlaying d s
  | timerButton m =>
    show (handleTimerButtonClick m s).isAnythingPlaying = _
    unfold handleTimerButtonClick
    simp only
    split
    · exact cleanupTimer_isAnythingPlaying s
    · exact startTimer_isAnythingPlaying _ s
  | tick => exact fireIntervals_isAnythingPlaying s

/-- C2, as the code has it: in every state reached from the mounted widget by
any sequence of operations, once the effect on `[volumes]` that follows the
last operation has run, `isAnythingPlaying` is true exactly when some entry of
the volume map is above 0; the handler of the next operation itself leaves
`isAnythingPlaying` at the value of the previous render, whatever it does to
the volume map. -/
theorem isAnythingPlaying_iff (es : List Event) :
    ((run es init).isAnythingPlaying = true ↔ ∃ p ∈ (run es init).volumes, 0 < p.2) ∧
    ∀ e : Event, (e.handler (run es init)).isAnythingPlaying
      = (run es init).isAnythingPlaying := by
  refine ⟨?_, fun e => handler_isAnythingPlaying e _⟩
  rw [(mixInv_run es).flag]
  exact isAnySoundOn_iff _

/-- C2, as stated, fails between the handler and the effect: when the slider
handler has set the rain volume of the mounted widget to 1, and before the
effect on `[volumes]` has run, the volume map has an entry above 0 while
`isAnythingPlaying` is still false. -/
theorem isAnythingPlaying_stale_before_effect :
    VolumeMap.get ((Event.slider "rain" 1).handler init).volumes "rain" = some 1 ∧
    ((Event.slider "rain" 1).handler init).isAnythingPlaying = false ∧
    ¬ (((Event.slider "rain" 1).handler init).isAnythingPlaying = true ↔
        ∃ p ∈ ((Event.slider "rain" 1).handler init).volumes, 0 < p.2) := by
  refine ⟨by decide, by decide, by decide⟩

/-- C7: in every reachable state in which no track has a volume above 0, the
master toggle sets the volume map to the stored snapshot; the snapshot is the
uniform mix with every known track at one half while no master pause has run;
and afterwards some track has a volume above 0 and the flag is set. -/
theorem toggleMasterPlay_from_idle (es : List Event)
    (hidle : ¬ ∃ p ∈ (run es init).volumes, 0 < p.2) :
    (step .masterToggle (run es init)).volumes = (run es init).lastPlayedVolumes ∧
    ((run es init).masterPauses = 0 → (run es init).lastPlayedVolumes
      = [("rain", 1 / 2), ("forest", 1 / 2), ("ocean", 1 / 2), ("summer", 1 / 2)]) ∧
    (∃ p ∈ (step .masterToggle (run es init)).volumes, 0 < p.2) ∧
    (step .masterToggle (run es init)).isAnythingPlaying = true := by
  have hinv := mixInv_run es
  have hp : (run es init).isAnythingPlaying = false := by
    rw [hinv.flag]
    cases h : isAnySoundOn (run es init).volumes
    · rfl
    · exact absurd ((isAnySoundOn_iff _).mp h) hidle
  have hv : (step .masterToggle (run es init)).volumes = (run es init).lastPlayedVolumes :=
    toggle_of_idle _ hp
  refine ⟨hv, ?_, ?_, ?_⟩
  · intro h0
    rw [hinv.fresh h0, uniformVolumes_eq]
  · rw [hv]; exact (isAnySoundOn_iff _).mp hinv.snapshot
  · have : (step .masterToggle (run es init)).isAnythingPlaying
        = isAnySoundOn (step .masterToggle (run es init)).volumes := rfl
    rw [this, hv]; exact hinv.snapshot

theorem toggleMasterPlay_from_idle_witness :
    (¬ ∃ p ∈ (run [] init).volumes, 0 < p.2) ∧
    (step .masterToggle (run [] init)).volumes = (run [] init).lastPlayedVolumes ∧
    ((run [] init).masterPauses = 0 → (run [] init).lastPlayedVolumes
      = [("rain", 1 / 2), ("forest", 1 / 2), ("ocean", 1 / 2), ("summer", 1 / 2)]) ∧
    (∃ p ∈ (step .masterToggle (run [] init)).volumes, 0 < p.2) ∧
    (step .masterToggle (run [] init)).isAnythingPlaying = true :=
  ⟨by decide, toggleMasterPlay_from_idle [] (by decide)⟩

/-- C8: in every state reached from the mounted widget by any sequence of
operations, the volume map and the stored snapshot each hold exactly one entry
for every known track id (`rain`, `forest`, `ocean`, `summer`), so reading the
entry of a known track never gives `undefined`. -/
theorem volumeMap_total (es : List Event) (id : String)
    (hid : id ∈ ["rain", "forest", "ocean", "summer"]) :
    (objectKeys (run es init).volumes).count id = 1 ∧
    (objectKeys (run es init).lastPlayedVolumes).count id = 1 ∧
    (VolumeMap.get (run es init).volumes id).isSome = true ∧
    (VolumeMap.get (run es init).lastPlayedVolumes id).isSome = true := by
  have hinv := keysInv_run es
  have hk : id ∈ knownIds := by rw [knownIds_eq]; exact hid
  have h1 := hinv.volumes id hk
  have h2 := hinv.snapshot id hk
  exact ⟨h1, h2, get_isSome_of_mem _ _ (List.count_pos_iff.mp (by omega)),
    get_isSome_of_mem _ _ (List.count_pos_iff.mp (by omega))⟩

theorem volumeMap_total_witness :
    "ocean" ∈ ["rain", "forest", "ocean", "summer"] ∧
    (objectKeys (run [.slider "rain" 1, .masterToggle, .tick] init).volumes).count "ocean" = 1 ∧
    (objectKeys (run [.slider "rain" 1, .masterToggle, .tick] init).lastPlayedVolumes).count
      "ocean" = 1 ∧
    (VolumeMap.get (run [.slider "rain" 1, .masterToggle, .tick] init).volumes
      "ocean").isSome = true ∧
    (VolumeMap.get (run [.slider "rain" 1, .masterToggle, .tick] init).lastPlayedVolumes
      "ocean").isSome = true :=
  ⟨by decide, volumeMap_total [.slider "rain" 1, .masterToggle, .tick] "ocean" (by decide)⟩

/-! ## The timer -/

theorem Running.timerWF {s : WidgetState} {h : Nat} {r d : Int} {c : Nat}
    (hr : Running s h r d c) : TimerWF s :=
  ⟨by rw [hr.intervals, hr.ref]; rfl,
   fun h' hh => (by rw [hr.ref] at hh; cases hh; exact hr.pos), hr.next⟩

theorem Stopped.timerWF_of_stopped {s : WidgetState} {c : Nat} (hs : Stopped s c) : TimerWF s :=
  ⟨by rw [hs.intervals, hs.ref]; rfl, fun h' hh => (by rw [hs.ref] at hh; cases hh), hs.next⟩

theorem timerWF_init : TimerWF init :=
  ⟨rfl, fun _ h => (by cases h), by decide⟩

theorem cleanupTimer_of_wf (s : WidgetState) (h : TimerWF s) :
    cleanupTimer s = { s with activeIntervals := [], timerIntervalRef := none } := by
  obtain ⟨hi, hh, _⟩ := h
  rcases s with ⟨vol, flag, lp, td, tr, ref, act, nxt, ctl, sac, mp⟩
  simp only at hi hh
  cases ref with
  | none => subst hi; rfl
  | some h0 =>
    have h1 : h0 ≠ 0 := hh h0 rfl
    subst hi
    simp [cleanupTimer, h1]

theorem startTimer_pos (s : WidgetState) (h : TimerWF s) (d : Int) (hd : 0 < d) :
    startTimer d s = { s with timerDuration := d, timerRemaining := d,
                              timerIntervalRef := some s.nextIntervalId,
                              activeIntervals := [s.nextIntervalId],
                              nextIntervalId := s.nextIntervalId + 1 } := by
  unfold startTimer
  rw [cleanupTimer_of_wf s h]
  simp [hd]

theorem startTimer_nonpos (s : WidgetState) (h : TimerWF s) (d : Int) (hd : ¬ 0 < d) :
    startTimer d s = { s with timerDuration := d, timerRemaining := d,
                              timerIntervalRef := none, activeIntervals := [] } := by
  unfold startTimer
  rw [cleanupTimer_of_wf s h]
  simp [hd]

theorem fireIntervals_of_ref (s : WidgetState) (h : Nat) (hi : s.activeIntervals = [h]) :
    fireIntervals s = intervalCallback s := by
  unfold fireIntervals
  rw [hi]
  simp [hi]

theorem fireIntervals_of_idle (s : WidgetState) (hi : s.activeIntervals = []) :
    fireIntervals s = s := by
  unfold fireIntervals
  rw [hi]
  rfl

theorem intervalCallback_last (s : WidgetState) (h : TimerWF s) (hr : s.timerRemaining ≤ 1) :
    intervalCallback s = { s with volumes := uniformVolumes 0,
                                  stopAllCalls := s.stopAllCalls + 1,
                                  activeIntervals := [], timerIntervalRef := none,
                                  timerDuration := 0, timerRemaining := 0 } := by
  unfold intervalCallback
  rw [if_pos hr, cleanupTimer_of_wf s h]
  rfl

theorem intervalCallback_more (s : WidgetState) (hr : ¬ s.timerRemaining ≤ 1) :
    intervalCallback s = { s with timerRemaining := s.timerRemaining - 1 } := by
  unfold intervalCallback
  rw [if_neg hr]

theorem start_running (s : WidgetState) (h : TimerWF s) (d : Int) (hd : 0 < d) :
    Running (step (.start d) s) s.nextIntervalId d d s.stopAllCalls := by
  have e : (Event.start d).handler s = startTimer d s := rfl
  unfold step
  rw [e, startTimer_pos s h d hd]
  exact ⟨rfl, h.next, rfl, rfl, rfl, rfl, Nat.succ_ne_zero _⟩

theorem start_nextIntervalId (s : WidgetState) (h : TimerWF s) (d : Int) (hd : 0 < d) :
    (step (.start d) s).nextIntervalId = s.nextIntervalId + 1 := by
  have e : (Event.start d).handler s = startTimer d s := rfl
  unfold step
  rw [e, startTimer_pos s h d hd]
  rfl

theorem tick_running {s : WidgetState} {h : Nat} {r d : Int} {c : Nat}
    (hs : Running s h r d c) (hr : 1 < r) : Running (step .tick s) h (r - 1) d c := by
  have e : Event.tick.handler s = fireIntervals s := rfl
  have hr1 : ¬ s.timerRemaining ≤ 1 := by rw [hs.remaining]; omega
  unfold step
  rw [e, fireIntervals_of_ref s h hs.intervals, intervalCallback_more s hr1]
  exact ⟨hs.ref, hs.pos, hs.intervals, by simp [hs.remaining], hs.duration, hs.calls, hs.next⟩

theorem tick_expire {s : WidgetState} {h : Nat} {r d : Int} {c : Nat}
    (hs : Running s h r d c) (hr : r ≤ 1) :
    Stopped (step .tick s) (c + 1) ∧ (step .tick s).volumes = uniformVolumes 0 := by
  have e : Event.tick.handler s = fireIntervals s := rfl
  have hr1 : s.timerRemaining ≤ 1 := by rw [hs.remaining]; exact hr
  unfold step
  rw [e, fireIntervals_of_ref s h hs.intervals, intervalCallback_last s hs.timerWF hr1]
  exact ⟨⟨rfl, rfl, rfl, rfl, by simp [hs.calls], hs.next⟩, rfl⟩

theorem tick_idle (s : WidgetState) (hi : s.activeIntervals = []) :
    (step .tick s).activeIntervals = [] ∧ (step .tick s).stopAllCalls = s.stopAllCalls ∧
    (step .tick s).volumes = s.volumes := by
  have e : Event.tick.handler s = fireIntervals s := rfl
  unfold step
  rw [e, fireIntervals_of_idle s hi]
  exact ⟨hi, rfl, rfl⟩

theorem ticks_running (k : Nat) : ∀ {s : WidgetState} {h : Nat} {r d : Int} {c : Nat},
    Running s h r d c → (k : Int) < r → Running (ticks k s) h (r - k) d c := by
  induction k with
  | zero => intro s h r d c hs _; simpa [ticks] using hs
  | succ k ih =>
    intro s h r d c hs hk
    have h1 := tick_running hs (by push_cast at hk; omega)
    have h2 := ih h1 (by push_cast at hk; omega)
    have e : r - 1 - (k : Int) = r - ((k + 1 : Nat) : Int) := by push_cast; ring
    rw [e] at h2
    exact h2

theorem ticks_idle (k : Nat) : ∀ (s : WidgetState), s.activeIntervals = [] →
    (ticks k s).activeIntervals = [] ∧ (ticks k s).stopAllCalls = s.stopAllCalls ∧
    (ticks k s).volumes = s.volumes := by
  induction k with
  | zero => intro s hs; exact ⟨hs, rfl, rfl⟩
  | succ k ih =>
    intro s hs
    obtain ⟨h1, h2, h3⟩ := tick_idle s hs
    obtain ⟨h4, h5, h6⟩ := ih (step .tick s) h1
    exact ⟨h4, h5.trans h2, h6.trans h3⟩

theorem ticks_succ (k : Nat) (s : WidgetState) : ticks (k + 1) s = step .tick (ticks k s) := by
  induction k generalizing s with
  | zero => rfl
  | succ k ih => exact ih (step .tick s)

theorem sameTimer_commit (s : WidgetState) : SameTimer s (commit s) :=
  ⟨rfl, rfl, rfl, rfl, rfl⟩

theorem sameTimer_mix (e : Event) (s : WidgetState)
    (he : ∀ d, e ≠ .start d ∧ e ≠ .timerButton d ∧ e ≠ .tick) : SameTimer s (step e s) := by
  cases e with
  | slider id v =>
    have : SameTimer s (sliderChange id v s) := by
      unfold sliderChange handleVolumeChange
      split <;> exact ⟨rfl, rfl, rfl, rfl, rfl⟩
    exact ⟨this.duration, this.remaining, this.ref, this.intervals, this.next⟩
  | volumeChange id v => exact ⟨rfl, rfl, rfl, rfl, rfl⟩
  | stopAll => exact ⟨rfl, rfl, rfl, rfl, rfl⟩
  | masterToggle =>
    have : SameTimer s (toggleMasterPlay s) := by
      unfold toggleMasterPlay stopAllSounds
      split <;> exact ⟨rfl, rfl, rfl, rfl, rfl⟩
    exact ⟨this.duration, this.remaining, this.ref, this.intervals, this.next⟩
  | start d => exact absurd rfl (he d).1
  | timerButton m => exact absurd rfl (he m).2.1
  | tick => exact absurd rfl (he 0).2.2

theorem TimerWF.of_same {s t : WidgetState} (h : TimerWF s) (hst : SameTimer s t) :
    TimerWF t :=
  ⟨by rw [hst.intervals, hst.ref]; exact h.intervals,
   fun h0 hh => (by rw [hst.ref] at hh; exact h.handle h0 hh),
   by rw [hst.next]; exact h.next⟩

theorem timerWF_step (e : Event) (s : WidgetState) (h : TimerWF s) : TimerWF (step e s) := by
  cases e with
  | slider id v => exact h.of_same (sameTimer_mix _ s (by simp))
  | volumeChange id v => exact h.of_same (sameTimer_mix _ s (by simp))
  | stopAll => exact h.of_same (sameTimer_mix _ s (by simp))
  | masterToggle => exact h.of_same (sameTimer_mix _ s (by simp))
  | start d =>
    by_cases hd : 0 < d
    · exact (start_running s h d hd).timerWF
    · have e : (Event.start d).handler s = startTimer d s := rfl
      unfold step
      rw [e, startTimer_nonpos s h d hd]
      exact ⟨rfl, fun _ hh => (by cases hh), h.next⟩
  | timerButton m =>
    have e : (Event.timerButton m).handler s = handleTimerButtonClick m s := rfl
    unfold step
    rw [e]
    unfold handleTimerButtonClick
    simp only
    split
    · rw [cleanupTimer_of_wf s h]
      exact ⟨rfl, fun _ hh => (by cases hh), h.next⟩
    · by_cases hd : 0 < m * 60
      · rw [startTimer_pos s h _ hd]
        exact ⟨rfl, fun h0 hh => (by cases hh; exact h.next), Nat.succ_ne_zero _⟩
      · rw [startTimer_nonpos s h _ hd]
        exact ⟨rfl, fun _ hh => (by cases hh), h.next⟩
  | tick =>
    have e : Event.tick.handler s = fireIntervals s := rfl
    unfold step
    rw [e]
    cases hr : s.timerIntervalRef with
    | none =>
      have hi : s.activeIntervals = [] := by rw [h.intervals, hr]; rfl
      rw [fireIntervals_of_idle s hi]
      exact h.of_same (sameTimer_commit s)
    | some h0 =>
      have hi : s.activeIntervals = [h0] := by rw [h.intervals, hr]; rfl
      rw [fireIntervals_of_ref s h0 hi]
      by_cases hle : s.timerRemaining ≤ 1
      · rw [intervalCallback_last s h hle]
        exact ⟨rfl, fun _ hh => (by cases hh), h.next⟩
      · rw [intervalCallback_more s hle]
        exact ⟨h.intervals, h.handle, h.next⟩

theorem timerWF_run (es : List Event) : TimerWF (run es init) :=
  run_induction TimerWF timerWF_init timerWF_step es

theorem timerBounds_init : TimerBounds init :=
  ⟨timerWF_init, by decide, by decide, fun h => absurd rfl h⟩

theorem timerBounds_step (e : Event) (s : WidgetState) (he : e.nonneg) (h : TimerBounds s) :
    TimerBounds (step e s) := by
  have hwf := timerWF_step e s h.wf
  have mix : ∀ e' : Event, (∀ d, e' ≠ .start d ∧ e' ≠ .timerButton d ∧ e' ≠ .tick) →
      TimerWF (step e' s) → TimerBounds (step e' s) := by
    intro e' he' hw
    have hst := sameTimer_mix e' s he'
    exact ⟨hw, by rw [hst.remaining]; exact h.nonneg,
      by rw [hst.remaining, hst.duration]; exact h.le,
      by rw [hst.remaining, hst.ref]; exact h.active⟩
  cases e with
  | slider id v => exact mix _ (by simp) hwf
  | volumeChange id v => exact mix _ (by simp) hwf
  | stopAll => exact mix _ (by simp) hwf
  | masterToggle => exact mix _ (by simp) hwf
  | start d =>
    have hd0 : 0 ≤ d := he
    refine ⟨hwf, ?_, ?_, ?_⟩
    all_goals
      have e : (Event.start d).handler s = startTimer d s := rfl
      unfold step
      rw [e]
      by_cases hd : 0 < d
      · rw [startTimer_pos s h.wf d hd]
        simp [hd0, hd]
      · rw [startTimer_nonpos s h.wf d hd]
        simp [hd0]
  | timerButton m =>
    have hm0 : 0 ≤ m := he
    refine ⟨hwf, ?_, ?_, ?_⟩
    all_goals
      have e : (Event.timerButton m).handler s = handleTimerButtonClick m s := rfl
      unfold step
      rw [e]
      unfold handleTimerButtonClick
      simp only
      split
      · rw [cleanupTimer_of_wf s h.wf]
        simp
      · by_cases hd : 0 < m * 60
        · rw [startTimer_pos s h.wf _ hd]
          simp [hd]
          try omega
        · rw [startTimer_nonpos s h.wf _ hd]
          simp
          try omega
  | tick =>
    refine ⟨hwf, ?_, ?_, ?_⟩
    all_goals
      have e : Event.tick.handler s = fireIntervals s := rfl
      unfold step
      rw [e]
      cases hr : s.timerIntervalRef with
      | none =>
        have hi : s.activeIntervals = [] := by rw [h.wf.intervals, hr]; rfl
        rw [fireIntervals_of_idle s hi]
        first
          | exact h.nonneg
          | exact h.le
          | (intro hne; exact absurd hr hne)
      | some h0 =>
        have hi : s.activeIntervals = [h0] := by rw [h.wf.intervals, hr]; rfl
        rw [fireIntervals_of_ref s h0 hi]
        have hle' := h.le
        have hnn := h.nonneg
        by_cases hle : s.timerRemaining ≤ 1
        · rw [intervalCallback_last s h.wf hle]
          simp
        · rw [intervalCallback_more s hle]
          simp
          try omega

theorem timerBounds_run (es : List Event) (hes : ∀ e ∈ es, e.nonneg) :
    TimerBounds (run es init) :=
  run_induction_nonneg TimerBounds timerBounds_init timerBounds_step es hes

/-! ## Claims about the timer -/

/-- C3: in every reachable state and for every `n > 0`, after `startTimer(n)`
and `k < n` ticks the remaining time is `n - k`, the configured duration is
still `n`, the tick source is running and `stopAllSounds` has not been called;
the `n`-th tick calls `stopAllSounds` exactly once, mutes every track and
leaves duration 0, remaining 0, an empty ref and no running interval. -/
theorem timer_expiry (es : List Event) (n : Nat) (hn : 0 < n) :
    (∀ k, k < n →
      (ticks k (step (.start n) (run es init))).timerRemaining = (n : Int) - k ∧
      (ticks k (step (.start n) (run es init))).timerDuration = n ∧
      (ticks k (step (.start n) (run es init))).timerIntervalRef
        = some (run es init).nextIntervalId ∧
      (ticks k (step (.start n) (run es init))).activeIntervals
        = [(run es init).nextIntervalId] ∧
      (ticks k (step (.start n) (run es init))).stopAllCalls = (run es init).stopAllCalls) ∧
    (ticks n (step (.start n) (run es init))).stopAllCalls
      = (run es init).stopAllCalls + 1 ∧
    (ticks n (step (.start n) (run es init))).volumes = uniformVolumes 0 ∧
    (ticks n (step (.start n) (run es init))).timerDuration = 0 ∧
    (ticks n (step (.start n) (run es init))).timerRemaining = 0 ∧
    (ticks n (step (.start n) (run es init))).timerIntervalRef = none ∧
    (ticks n (step (.start n) (run es init))).activeIntervals = [] := by
  have hwf := timerWF_run es
  have h0 := start_running (run es init) hwf n (by exact_mod_cast hn)
  have hk : ∀ k, k < n → Running (ticks k (step (.start n) (run es init)))
      (run es init).nextIntervalId ((n : Int) - k) n (run es init).stopAllCalls :=
    fun k hkn => ticks_running k h0 (by exact_mod_cast hkn)
  refine ⟨fun k hkn => ?_, ?_⟩
  · have h := hk k hkn
    exact ⟨h.remaining, h.duration, h.ref, h.intervals, h.calls⟩
  · obtain ⟨m, rfl⟩ : ∃ m, n = m + 1 := ⟨n - 1, by omega⟩
    have h := hk m (by omega)
    obtain ⟨hs, hv⟩ := tick_expire h (by push_cast; omega)
    rw [ticks_succ]
    exact ⟨hs.calls, hv, hs.duration, hs.remaining, hs.ref, hs.intervals⟩

theorem timer_expiry_witness :
    0 < 5 ∧
    (∀ k, k < 5 →
      (ticks k (step (.start (5 : Nat)) (run [] init))).timerRemaining = ((5 : Nat) : Int) - k ∧
      (ticks k (step (.start (5 : Nat)) (run [] init))).timerDuration = (5 : Nat) ∧
      (ticks k (step (.start (5 : Nat)) (run [] init))).timerIntervalRef
        = some (run [] init).nextIntervalId ∧
      (ticks k (step (.start (5 : Nat)) (run [] init))).activeIntervals
        = [(run [] init).nextIntervalId] ∧
      (ticks k (step (.start (5 : Nat)) (run [] init))).stopAllCalls
        = (run [] init).stopAllCalls) ∧
    (ticks 5 (step (.start (5 : Nat)) (run [] init))).stopAllCalls
      = (run [] init).stopAllCalls + 1 ∧
    (ticks 5 (step (.start (5 : Nat)) (run [] init))).volumes = uniformVolumes 0 ∧
    (ticks 5 (step (.start (5 : Nat)) (run [] init))).timerDuration = 0 ∧
    (ticks 5 (step (.start (5 : Nat)) (run [] init))).timerRemaining = 0 ∧
    (ticks 5 (step (.start (5 : Nat)) (run [] init))).timerIntervalRef = none ∧
    (ticks 5 (step (.start (5 : Nat)) (run [] init))).activeIntervals = [] :=
  ⟨by decide, timer_expiry [] 5 (by decide)⟩

/-- C4: in every reachable state and for every `m` (so for every `m > 0`): when
a tick source is running and the configured duration is `m * 60`,
`handleTimerButtonClick(m)` stops the tick source, empties the ref, sets
duration and remaining to 0, and no number of later ticks calls
`stopAllSounds`; in every other state `handleTimerButtonClick(m)` does exactly
what `startTimer(m * 60)` does. -/
theorem timer_button_cancel_or_start (es : List Event) (m : Int) :
    ((run es init).activeIntervals ≠ [] ∧ (run es init).timerDuration = m * 60 →
      (step (.timerButton m) (run es init)).activeIntervals = [] ∧
      (step (.timerButton m) (run es init)).timerIntervalRef = none ∧
      (step (.timerButton m) (run es init)).timerDuration = 0 ∧
      (step (.timerButton m) (run es init)).timerRemaining = 0 ∧
      ∀ k, (ticks k (step (.timerButton m) (run es init))).stopAllCalls
        = (run es init).stopAllCalls) ∧
    (¬ ((run es init).activeIntervals ≠ [] ∧ (run es init).timerDuration = m * 60) →
      step (.timerButton m) (run es init) = step (.start (m * 60)) (run es init)) := by
  have hwf := timerWF_run es
  generalize run es init = s at hwf ⊢
  have e : (Event.timerButton m).handler s = handleTimerButtonClick m s := rfl
  have htruthy : refTruthy s.timerIntervalRef = true ↔ s.activeIntervals ≠ [] := by
    rw [hwf.intervals]
    cases hr : s.timerIntervalRef with
    | none => simp [refTruthy]
    | some h0 => simpa [refTruthy] using hwf.handle h0 hr
  constructor
  · rintro ⟨hact, hdur⟩
    have hc : handleTimerButtonClick m s =
        { cleanupTimer s with timerDuration := 0, timerRemaining := 0 } := by
      unfold handleTimerButtonClick
      simp only
      rw [if_pos ⟨hdur, htruthy.mpr hact⟩]
    have hstep : step (.timerButton m) s = commit
        { s with activeIntervals := [], timerIntervalRef := none,
                 timerDuration := 0, timerRemaining := 0 } := by
      unfold step
      rw [e, hc, cleanupTimer_of_wf s hwf]
    refine ⟨by rw [hstep]; rfl, by rw [hstep]; rfl, by rw [hstep]; rfl, by rw [hstep]; rfl, ?_⟩
    intro k
    have := (ticks_idle k (step (.timerButton m) s) (by rw [hstep]; rfl)).2.1
    rw [this, hstep]
    rfl
  · intro hno
    have hc : handleTimerButtonClick m s = startTimer (m * 60) s := by
      unfold handleTimerButtonClick
      simp only
      rw [if_neg]
      rintro ⟨hdur, htr⟩
      exact hno ⟨htruthy.mp htr, hdur⟩
    unfold step
    rw [e, hc]
    rfl

theorem timer_button_cancel_or_start_witness :
    (step (.timerButton 30) (run [.timerButton 30, .tick] init)).activeIntervals = [] ∧
    (step (.timerButton 30) (run [.timerButton 30, .tick] init)).timerDuration = 0 ∧
    (step (.timerButton 30) (run [.timerButton 30, .tick] init)).timerRemaining = 0 ∧
    (ticks 2000 (step (.timerButton 30) (run [.timerButton 30, .tick] init))).stopAllCalls
      = (run [.timerButton 30, .tick] init).stopAllCalls ∧
    step (.timerButton 30) (run [.timerButton 15] init)
      = step (.start (30 * 60)) (run [.timerButton 15] init) :=
  ⟨((timer_button_cancel_or_start [.timerButton 30, .tick] 30).1
      ⟨by decide, by decide⟩).1,
   ((timer_button_cancel_or_start [.timerButton 30, .tick] 30).1
      ⟨by decide, by decide⟩).2.2.1,
   ((timer_button_cancel_or_start [.timerButton 30, .tick] 30).1
      ⟨by decide, by decide⟩).2.2.2.1,
   ((timer_button_cancel_or_start [.timerButton 30, .tick] 30).1
      ⟨by decide, by decide⟩).2.2.2.2 2000,
   (timer_button_cancel_or_start [.timerButton 15] 30).2 (by decide)⟩

/-- C6: in every reachable state and for all `a > 0` and `b > 0`, after
`startTimer(a)` directly followed by `startTimer(b)` exactly one interval is
running, it is the one the second call installed (the ref points to it) and
not the one the first call installed, duration and remaining are `b`, and the
next tick takes remaining from `b` to `b - 1`. -/
theorem restart_single_tick_source (es : List Event) (a b : Int) (ha : 0 < a) (hb : 0 < b) :
    (step (.start a) (run es init)).activeIntervals = [(run es init).nextIntervalId] ∧
    (step (.start b) (step (.start a) (run es init))).activeIntervals
      = [(run es init).nextIntervalId + 1] ∧
    (step (.start b) (step (.start a) (run es init))).activeIntervals.length = 1 ∧
    (run es init).nextIntervalId
      ∉ (step (.start b) (step (.start a) (run es init))).activeIntervals ∧
    (step (.start b) (step (.start a) (run es init))).timerIntervalRef
      = some ((run es init).nextIntervalId + 1) ∧
    (step (.start b) (step (.start a) (run es init))).timerDuration = b ∧
    (step (.start b) (step (.start a) (run es init))).timerRemaining = b ∧
    (step .tick (step (.start b) (step (.start a) (run es init)))).timerRemaining = b - 1 := by
  have hwf := timerWF_run es
  generalize run es init = s at hwf ⊢
  have h1 := start_running s hwf a ha
  have hn := start_nextIntervalId s hwf a ha
  have h2 := start_running (step (.start a) s) h1.timerWF b hb
  rw [hn] at h2
  have hact := h2.intervals
  refine ⟨h1.intervals, hact, by rw [hact]; rfl, by rw [hact]; simp, h2.ref, h2.duration,
    h2.remaining, ?_⟩
  by_cases hb1 : 1 < b
  · exact (tick_running h2 hb1).remaining
  · have hb' : b = 1 := by omega
    rw [(tick_expire h2 (by omega)).1.remaining, hb']
    rfl

theorem restart_single_tick_source_witness :
    (0 : Int) < 60 ∧ (0 : Int) < 900 ∧
    (step (.start 900) (step (.start 60) (run [] init))).activeIntervals.length = 1 ∧
    (step (.start 900) (step (.start 60) (run [] init))).timerRemaining = 900 ∧
    (step .tick (step (.start 900) (step (.start 60) (run [] init)))).timerRemaining
      = 900 - 1 :=
  ⟨by decide, by decide,
   (restart_single_tick_source [] 60 900 (by decide) (by decide)).2.2.1,
   (restart_single_tick_source [] 60 900 (by decide) (by decide)).2.2.2.2.2.2.1,
   (restart_single_tick_source [] 60 900 (by decide) (by decide)).2.2.2.2.2.2.2⟩

/-- C9: in every state reached by operations whose timer arguments are not
negative, `0 ≤ timerRemaining ≤ timerDuration`, the running intervals are
exactly the one the ref holds, and a tick source is running only while
`timerDuration > 0` and `timerRemaining > 0`. -/
theorem timer_state_invariant (es : List Event) (hes : ∀ e ∈ es, e.nonneg) :
    0 ≤ (run es init).timerRemaining ∧
    (run es init).timerRemaining ≤ (run es init).timerDuration ∧
    0 ≤ (run es init).timerDuration ∧
    (run es init).activeIntervals = (run es init).timerIntervalRef.toList ∧
    ((run es init).timerIntervalRef ≠ none →
      0 < (run es init).timerDuration ∧ 0 < (run es init).timerRemaining) := by
  have h := timerBounds_run es hes
  refine ⟨h.nonneg, h.le, le_trans h.nonneg h.le, h.wf.intervals, fun hne => ?_⟩
  exact ⟨lt_of_lt_of_le (h.active hne) h.le, h.active hne⟩

theorem timer_state_invariant_witness :
    (∀ e ∈ [Event.timerButton 15, .tick, .start 0, .start 2, .tick], e.nonneg) ∧
    0 ≤ (run [Event.timerButton 15, .tick, .start 0, .start 2, .tick] init).timerRemaining ∧
    (run [Event.timerButton 15, .tick, .start 0, .start 2, .tick] init).timerRemaining
      ≤ (run [Event.timerButton 15, .tick, .start 0, .start 2, .tick] init).timerDuration ∧
    0 ≤ (run [Event.timerButton 15, .tick, .start 0, .start 2, .tick] init).timerDuration ∧
    (run [Event.timerButton 15, .tick, .start 0, .start 2, .tick] init).activeIntervals
      = (run [Event.timerButton 15, .tick, .start 0, .start 2, .tick] init).timerIntervalRef.toList ∧
    ((run [Event.timerButton 15, .tick, .start 0, .start 2, .tick] init).timerIntervalRef ≠ none →
      0 < (run [Event.timerButton 15, .tick, .start 0, .start 2, .tick] init).timerDuration ∧
      0 < (run [Event.timerButton 15, .tick, .start 0, .start 2, .tick] init).timerRemaining) :=
  ⟨by simp [Event.nonneg],
   timer_state_invariant [Event.timerButton 15, .tick, .start 0, .start 2, .tick]
     (by simp [Event.nonneg])⟩

/-! ## Claims about the playback handles -/

/-- C5, where the code departs from the claim.  With the rain slider at 1, the
master pause sets the rain entry of the volume map to 0, and so does the
expiry of a one-second timer, yet the rain audio element keeps volume 1 and
keeps playing; from the mounted widget the master toggle sets every entry to
one half, yet every audio element keeps volume 0 and stays paused.  Only the
slider reaches the audio element: after the slider change itself the rain
element has volume 1 and plays. -/
theorem widget_volume_change_not_pushed :
    (run [.slider "rain" 1] init).controls.map
        (fun c => (c.sound.id, c.audio.volume, c.audio.paused))
      = [("rain", 1, false), ("forest", 0, true), ("ocean", 0, true), ("summer", 0, true)] ∧
    VolumeMap.get (run [.slider "rain" 1, .masterToggle] init).volumes "rain" = some 0 ∧
    (run [.slider "rain" 1, .masterToggle] init).controls.map
        (fun c => (c.sound.id, c.audio.volume, c.audio.paused))
      = [("rain", 1, false), ("forest", 0, true), ("ocean", 0, true), ("summer", 0, true)] ∧
    VolumeMap.get (run [.slider "rain" 1, .start 1, .tick] init).volumes "rain" = some 0 ∧
    (run [.slider "rain" 1, .start 1, .tick] init).controls.map
        (fun c => (c.sound.id, c.audio.volume, c.audio.paused))
      = [("rain", 1, false), ("forest", 0, true), ("ocean", 0, true), ("summer", 0, true)] ∧
    (run [.masterToggle] init).volumes = uniformVolumes (1 / 2) ∧
    (run [.masterToggle] init).controls.map
        (fun c => (c.sound.id, c.audio.volume, c.audio.paused))
      = [("rain", 0, true), ("forest", 0, true), ("ocean", 0, true), ("summer", 0, true)] := by
  refine ⟨by decide, by decide, by decide, by decide, by decide, rfl, by decide⟩

/-! ## Claims about the display -/

theorem toDigitsCore_append (fuel : Nat) : ∀ (n : Nat) (ds : List Char),
    Nat.toDigitsCore 10 fuel n ds = Nat.toDigitsCore 10 fuel n [] ++ ds := by
  induction fuel with
  | zero => intro n ds; rfl
  | succ fuel ih =>
    intro n ds
    simp only [Nat.toDigitsCore]
    split
    · rfl
    · rw [ih (n / 10) ((n % 10).digitChar :: ds), ih (n / 10) [(n % 10).digitChar]]
      simp

theorem toDigitsCore_succ (fuel n : Nat) :
    Nat.toDigitsCore 10 (fuel + 1) n [] =
      if n / 10 = 0 then [(n % 10).digitChar]
      else Nat.toDigitsCore 10 fuel (n / 10) [] ++ [(n % 10).digitChar] := by
  simp only [Nat.toDigitsCore]
  split
  · rfl
  · exact toDigitsCore_append fuel (n / 10) _

theorem digitValue_digitChar : ∀ k, k < 10 → digitValue (Nat.digitChar k) = k := by
  decide

theorem isDigit_digitChar : ∀ k, k < 10 → (Nat.digitChar k).isDigit = true := by
  decide

theorem parseDecimal_append (l : List Char) (c : Char) :
    parseDecimal (l ++ [c]) = 10 * parseDecimal l + digitValue c := by
  simp [parseDecimal, List.foldl_append]

theorem toDigitsCore_spec (fuel : Nat) : ∀ n, n < fuel →
    parseDecimal (Nat.toDigitsCore 10 fuel n []) = n ∧
    (∀ c ∈ Nat.toDigitsCore 10 fuel n [], c.isDigit = true) ∧
    1 ≤ (Nat.toDigitsCore 10 fuel n []).length := by
  induction fuel with
  | zero => intro n hn; omega
  | succ fuel ih =>
    intro n hn
    rw [toDigitsCore_succ]
    have hd : n % 10 < 10 := Nat.mod_lt _ (by decide)
    split
    · rename_i h0
      refine ⟨?_, ?_, by simp⟩
      · have : parseDecimal [(n % 10).digitChar] = digitValue (n % 10).digitChar := by
          simp [parseDecimal]
        rw [this, digitValue_digitChar _ hd]
        omega
      · intro c hc
        simp only [List.mem_singleton] at hc
        rw [hc]; exact isDigit_digitChar _ hd
    · rename_i h0
      obtain ⟨h1, h2, h3⟩ := ih (n / 10) (by omega)
      refine ⟨?_, ?_, by simp⟩
      · rw [parseDecimal_append, h1, digitValue_digitChar _ hd]
        omega
      · intro c hc
        simp only [List.mem_append, List.mem_singleton] at hc
        rcases hc with hc | hc
        · exact h2 c hc
        · rw [hc]; exact isDigit_digitChar _ hd

theorem toDigits_spec (n : Nat) :
    parseDecimal (Nat.toDigits 10 n) = n ∧
    (∀ c ∈ Nat.toDigits 10 n, c.isDigit = true) ∧
    1 ≤ (Nat.toDigits 10 n).length :=
  toDigitsCore_spec (n + 1) n (Nat.lt_succ_self n)

theorem toDigits_length_le_two (n : Nat) (h : n < 100) : (Nat.toDigits 10 n).length ≤ 2 := by
  unfold Nat.toDigits
  rw [toDigitsCore_succ]
  split
  · simp
  · obtain ⟨m, hm⟩ : ∃ m, n = m + 1 := ⟨n - 1, by omega⟩
    rw [hm, toDigitsCore_succ, if_pos (by omega)]
    simp

theorem parseDecimal_padStart (l : List Char) (k : Nat) :
    parseDecimal (padStart l k '0') = parseDecimal l := by
  unfold padStart parseDecimal
  rw [List.foldl_append]
  congr 1
  generalize k - l.length = j
  induction j with
  | zero => rfl
  | succ j ih => simpa [List.replicate_succ, digitValue] using ih

theorem isDigit_padStart (l : List Char) (k : Nat) (h : ∀ c ∈ l, c.isDigit = true) :
    ∀ c ∈ padStart l k '0', c.isDigit = true := by
  intro c hc
  simp only [padStart, List.mem_append, List.mem_replicate] at hc
  rcases hc with ⟨_, rfl⟩ | hc
  · decide
  · exact h c hc

/-- C10: for every integer `s > 0`, `formatTime s` is `MM:SS` where `MM` is the
decimal text of `floor(s / 60)` padded on the left with `0` to at least two
characters and `SS` is the decimal text of `s mod 60` padded on the left with
`0` to exactly two characters; both consist of decimal digits, `MM` reads as
`s / 60`, `SS` reads as `s % 60`, and `MM * 60 + SS` gives back `s`.  For
`s = 0` and for `s < 0` the result is the label `Set Timer`. -/
theorem formatTime_spec (s : Int) :
    (0 < s → ∃ mm ss : List Char,
      formatTime s = String.mk (mm ++ ':' :: ss) ∧
      mm = padStart (Nat.toDigits 10 (s / 60).toNat) 2 '0' ∧
      ss = padStart (Nat.toDigits 10 (s % 60).toNat) 2 '0' ∧
      2 ≤ mm.length ∧ ss.length = 2 ∧
      (∀ c ∈ mm, c.isDigit = true) ∧ (∀ c ∈ ss, c.isDigit = true) ∧
      (parseDecimal mm : Int) = s / 60 ∧ (parseDecimal ss : Int) = s % 60 ∧
      (parseDecimal mm : Int) * 60 + parseDecimal ss = s) ∧
    (s ≤ 0 → formatTime s = "Set Timer") := by
  constructor
  · intro hs
    have hq : 0 ≤ s / 60 := Int.ediv_nonneg (le_of_lt hs) (by decide)
    have hr : 0 ≤ s % 60 := Int.emod_nonneg s (by decide)
    have hr60 : s % 60 < 60 := Int.emod_lt_of_pos s (by decide)
    have hf : Int.fdiv s 60 = s / 60 := Int.fdiv_eq_ediv s (by decide)
    have ht : Int.tmod s 60 = s % 60 := Int.tmod_eq_emod (le_of_lt hs) (by decide)
    obtain ⟨m1, m2, m3⟩ := toDigits_spec (s / 60).toNat
    obtain ⟨s1, s2, s3⟩ := toDigits_spec (s % 60).toNat
    have s4 := toDigits_length_le_two (s % 60).toNat (by omega)
    refine ⟨_, _, ?_, rfl, rfl, ?_, ?_, isDigit_padStart _ _ m2, isDigit_padStart _ _ s2,
      ?_, ?_, ?_⟩
    · unfold formatTime
      rw [if_neg (by omega)]
      simp only [hf, ht, numberToString, if_neg (not_lt.mpr hq), if_neg (not_lt.mpr hr)]
      simp
    · simp only [padStart, List.length_append, List.length_replicate]; omega
    · simp only [padStart, List.length_append, List.length_replicate]; omega
    · rw [parseDecimal_padStart, m1]; omega
    · rw [parseDecimal_padStart, s1]; omega
    · rw [parseDecimal_padStart, parseDecimal_padStart, m1, s1]; omega
  · intro hs
    unfold formatTime
    rw [if_pos (Or.inr hs)]

end NoiseWidget
